/-
  Verification of the ASN.1 BER/DER dump tool (doc/examples/asn1.cpp).

  Shallow embedding: bytes are `Nat` (values < 256 where it matters),
  C++ `std::string` values are Lean `String` (a wrapped `List Char`),
  the stream of `BER_Object`s produced by `BER_Decoder::get_next_object`
  is a list of `ASN1Obj` trees (a constructed object's value window,
  re-read as a stream, yields its children), and the two output channels
  (stdout `emit` calls, stderr diagnostics) are explicit lists.
-/
import Mathlib

set_option linter.unusedVariables false

/-! ## ASN.1 tag and class constants (botan `asn1_obj.h`) -/

def UNIVERSAL : Nat := 0x00
def APPLICATION : Nat := 0x40
def CONTEXT_SPECIFIC : Nat := 0x80
def PRIVATE : Nat := 0xC0
def CONSTRUCTED : Nat := 0x20

def BOOLEAN : Nat := 0x01
def INTEGER : Nat := 0x02
def BIT_STRING : Nat := 0x03
def OCTET_STRING : Nat := 0x04
def NULL_TAG : Nat := 0x05
def OBJECT_ID : Nat := 0x06
def SEQUENCE : Nat := 0x10
def SET : Nat := 0x11
def NUMERIC_STRING : Nat := 0x12
def PRINTABLE_STRING : Nat := 0x13
def T61_STRING : Nat := 0x14
def IA5_STRING : Nat := 0x16
def UTC_TIME : Nat := 0x17
def GENERALIZED_TIME : Nat := 0x18
def VISIBLE_STRING : Nat := 0x1A
def BMP_STRING : Nat := 0x1E
def UTF8_STRING : Nat := 0x0C

/-! ## Byte classification (C locale `isgraph` / `isspace` on byte values) -/

def isgraphB (b : Nat) : Bool := decide (0x21 ≤ b) && decide (b ≤ 0x7E)

def isspaceB (b : Nat) : Bool := b == 0x20 || (decide (0x09 ≤ b) && decide (b ≤ 0x0D))

/-- The `not_text` loop of asn1.cpp: set when some byte is neither
    `isgraph` nor `isspace`. -/
def not_text (bs : List Nat) : Bool := bs.any (fun b => !(isgraphB b || isspaceB b))

/-- Uppercase hex digit for a value < 16. -/
def hexDigitU (n : Nat) : Char :=
  if n < 10 then Char.ofNat (48 + n) else Char.ofNat (55 + n)

/-- Modelled from the spec: the external hex-text encoder (`Hex_Encoder`),
    two uppercase hex digits per byte. -/
def hexString (bs : List Nat) : String :=
  String.mk (bs.flatMap (fun b => [hexDigitU (b / 16), hexDigitU (b % 16)]))

/-- A byte sequence read back as a raw character string
    (`Pipe::read_all_as_string` with no filter). -/
def textString (bs : List Nat) : String :=
  String.mk (bs.map Char.ofNat)

/-- The `Pipe(not_text ? new Hex_Encoder : 0)` rendering of asn1.cpp:
    hex when some byte is non-printable and non-space, raw text otherwise. -/
def pipeOutput (bs : List Nat) : String :=
  if not_text bs then hexString bs else textString bs

/-! ## BIT STRING display (asn1.cpp lines 207-229) -/

/-- Bit `k` of byte `b`, as in `(b >> k) & 1`. -/
def bitAt (b k : Nat) : Bool := (b >>> k) &&& 1 == 1

def bitChar (b : Bool) : Char := if b then '1' else '0'

/-- The `bit_set` vector of asn1.cpp: for `j` in `[0, n)` and `k` in `[0, 8)`,
    push bit `7-k` of byte `bits[n-1-j]`. -/
def bit_set (bits : List Nat) : List Bool :=
  (List.range bits.length).flatMap (fun j =>
    (List.range 8).map (fun k => bitAt (bits.getD (bits.length - j - 1) 0) (7 - k)))

/-- The `bit_str` accumulation loop of asn1.cpp: skip a `0` while the
    accumulated string is still empty, append `'1'`/`'0'` otherwise. -/
def bitLoop : List Bool → List Char → List Char
  | [], acc => acc
  | b :: rest, acc =>
    if b = false ∧ acc = [] then bitLoop rest acc
    else bitLoop rest (acc ++ [bitChar b])

/-- The displayed BIT STRING value of asn1.cpp: the loop above run over
    `bit_set` in reverse order (`bit_set[bit_set.size()-j-1]`). -/
def bit_str (bits : List Nat) : String :=
  String.mk (bitLoop (bit_set bits).reverse [])

/-- Spec-side bit list (§4.2): iterate bytes from index `n-1` down to `0`,
    within each byte bit positions from bit 7 down to bit 0. -/
def specBitList (B : List Nat) : List Bool :=
  B.reverse.flatMap (fun byte => (List.range 8).map (fun k => bitAt byte (7 - k)))

/-- Spec-side display (§4.2): iterate `L` from its last index back to 0,
    emitting "1"/"0", skipping leading zeros until the first "1"; empty
    when no "1" exists. -/
def specBitDisplay (B : List Nat) : String :=
  String.mk (((specBitList B).reverse.dropWhile (fun b => !b)).map bitChar)

/-! ## INTEGER decoding and display (asn1.cpp lines 163-181) -/

/-- Modelled from the spec: `BER_Decoder::decode(BigInt&)` is external;
    DER two's-complement decoding of big-endian value bytes. -/
def decodeDERInt (v : List Nat) : Int :=
  let m : Nat := v.foldl (fun a b => a * 256 + b % 256) 0
  if 0x80 ≤ v.headD 0 then (m : Int) - 2 ^ (8 * v.length) else (m : Int)

/-- Fuel-driven binary length: number of significant bits of `n`,
    computed with `fuel ≥ n` steps. -/
def bitLengthAux : Nat → Nat → Nat
  | 0, _ => 0
  | fuel + 1, n => if n = 0 then 0 else bitLengthAux fuel (n / 2) + 1

/-- Modelled from the spec: `BigInt::bits()` is external; the number of
    significant bits of the magnitude. -/
def bigIntBits (n : Int) : Nat := bitLengthAux n.natAbs n.natAbs

/-- Modelled from the spec: `BigInt::encode(n, Decimal)` is external;
    decimal digits of the magnitude. -/
def decimalString (n : Int) : String := String.mk (Nat.toDigits 10 n.natAbs)

/-- Modelled from the spec: `BigInt::encode(n, Hexadecimal)` is external;
    hexadecimal digits of the magnitude. -/
def hexIntString (n : Int) : String := String.mk (Nat.toDigits 16 n.natAbs)

/-- The INTEGER display of asn1.cpp: decimal when `number.bits() <= 16`,
    hexadecimal otherwise. -/
def intDisplay (n : Int) : String :=
  if bigIntBits n ≤ 16 then decimalString n else hexIntString n

/-! ## OBJECT IDENTIFIER display (asn1.cpp lines 152-162) -/

/-- Modelled from the spec: `OID::as_string()` is external; the dot-joined
    decimal form of the components. -/
def oidToString (oid : List Nat) : String :=
  String.intercalate "." (oid.map (fun c => Nat.repr c))

/-- Modelled from the spec: `OIDS::lookup` is external; consults the
    OIDRegistry and falls back to the dotted numeric form on a miss. -/
def OIDS_lookup (registry : List Nat → Option String) (oid : List Nat) : String :=
  match registry oid with
  | some name => name
  | none => oidToString oid

/-- The OBJECT_ID display of asn1.cpp: the lookup result, with
    `" [<dotted>]"` appended when it differs from the dotted form. -/
def oidDisplay (registry : List Nat → Option String) (oid : List Nat) : String :=
  let out := OIDS_lookup registry oid
  if out ≠ oidToString oid then out ++ " [" ++ oidToString oid ++ "]" else out

/-- Base-128 group accumulation for OID component decoding. -/
def oidGroups : List Nat → Nat → List Nat
  | [], _ => []
  | b :: rest, acc =>
    if b < 0x80 then (acc * 128 + b) :: oidGroups rest 0
    else oidGroups rest (acc * 128 + (b % 128))

/-- Modelled from the spec: `BER_Decoder::decode(OID&)` is external;
    BER object-identifier component decoding (first byte packs the
    first two components, the rest are base-128 groups). -/
def decodeOID : List Nat → List Nat
  | [] => []
  | b :: rest => (b / 40) :: (b % 40) :: oidGroups rest 0

/-! ## Other external value decoders used by the dispatch -/

/-- Modelled from the spec: `BER_Decoder::decode(bool&)` is external;
    a BER boolean is true iff its value byte is nonzero. -/
def decodeBool (v : List Nat) : Bool := v.headD 0 != 0

/-- Modelled from the spec: BIT STRING value decoding is external
    (`BER_Decoder::decode(SecureVector&, BIT_STRING)`); it strips the
    leading unused-bit-count byte from the value window. -/
def bitStringContents (v : List Nat) : List Nat := v.drop 1

/-- Modelled from the spec: the charset transcoder is an external
    collaborator; Latin-1 bytes re-encoded as UTF-8 characters. -/
def latin1ToUtf8 (bs : List Nat) : String :=
  String.mk (bs.flatMap (fun b =>
    if b < 0x80 then [Char.ofNat b]
    else [Char.ofNat (0xC0 ||| (b >>> 6)), Char.ofNat (0x80 ||| (b &&& 0x3F))]))

/-- Modelled from the spec: `X509_Time::readable_string()` is external;
    the calendar rendering is represented by the raw time characters. -/
def timeDisplay (v : List Nat) : String := String.mk (v.map Char.ofNat)

/-- Big-endian base-256 digits of a number (empty for 0). -/
def natBytesBE : Nat → List Nat
  | 0 => []
  | n + 1 => natBytesBE ((n + 1) / 256) ++ [(n + 1) % 256]
decreasing_by exact Nat.div_lt_self (Nat.succ_pos n) (by decide)

/-- Modelled from the spec: DER definite-length encoding (external
    `DER_Encoder`); short form below 128, long form otherwise. -/
def derLength (len : Nat) : List Nat :=
  if len < 128 then [len]
  else (0x80 + (natBytesBE len).length) :: natBytesBE len

/-- Big-endian base-128 digits, high bit set on all but the last
    (empty for 0). -/
def natBytesBE7 : Nat → List Nat
  | 0 => []
  | n + 1 =>
    ((natBytesBE7 ((n + 1) / 128)).map (fun d => d + 128)) ++ [(n + 1) % 128]
decreasing_by exact Nat.div_lt_self (Nat.succ_pos n) (by decide)

/-- Base-128 tag digits with continuation bits on all but the last. -/
def base128Tag (t : Nat) : List Nat :=
  if natBytesBE7 t = [] then [0] else natBytesBE7 t

/-- Modelled from the spec: `DER_Encoder::add_object` is external; it
    re-serializes tag byte(s), length and value ("hack to insert the
    tag+length back in front", asn1.cpp lines 94-98). -/
def add_object (t c : Nat) (v : List Nat) : List Nat :=
  (if t ≤ 30 then [(c ||| t) % 256]
   else ((c ||| 31) % 256) :: base128Tag t) ++ derLength v.length ++ v

/-! ## type_name (asn1.cpp lines 289-310) -/

def type_name (type : Nat) : String :=
  if type = PRINTABLE_STRING then "PRINTABLE STRING"
  else if type = NUMERIC_STRING then "NUMERIC STRING"
  else if type = IA5_STRING then "IA5 STRING"
  else if type = T61_STRING then "T61 STRING"
  else if type = UTF8_STRING then "UTF8 STRING"
  else if type = VISIBLE_STRING then "VISIBLE STRING"
  else if type = BMP_STRING then "BMP STRING"
  else if type = UTC_TIME then "UTC TIME"
  else if type = GENERALIZED_TIME then "GENERALIZED TIME"
  else if type = OCTET_STRING then "OCTET STRING"
  else if type = BIT_STRING then "BIT STRING"
  else if type = INTEGER then "INTEGER"
  else if type = NULL_TAG then "NULL"
  else if type = OBJECT_ID then "OBJECT"
  else if type = BOOLEAN then "BOOLEAN"
  else "(UNKNOWN)"

/-! ## The object stream and the recursive decode (asn1.cpp lines 84-259) -/

/-- One call to `emit`: type label, nesting level, value length, display
    string.  The formatter renders exactly one output line per call. -/
structure EmitCall where
  type : String
  level : Nat
  length : Nat
  value : String
deriving Repr, DecidableEq

/-- A decoded `BER_Object` stream element.  `value` is the raw value
    window; for a constructed object, re-reading `value` as a stream
    yields `children` (the external scanner's contract, spec §3/§4.1). -/
inductive ASN1Obj : Type where
  | node (type_tag class_tag : Nat) (value : List Nat) (children : List ASN1Obj) : ASN1Obj
deriving Repr

def ASN1Obj.typeTag : ASN1Obj → Nat
  | .node t _ _ _ => t

def ASN1Obj.classTag : ASN1Obj → Nat
  | .node _ c _ _ => c

def ASN1Obj.val : ASN1Obj → List Nat
  | .node _ _ v _ => v

/-- The stderr diagnostic of asn1.cpp line 254 (`%02X` formatting). -/
def unknownTagMsg (c t : Nat) : String :=
  let hex02 : Nat → String := fun n =>
    let ds := (Nat.toDigits 16 n).map Char.toUpper
    String.mk (if ds.length = 1 then '0' :: ds else ds)
  "Unknown tag: class=" ++ hex02 c ++ ", type=" ++ hex02 t ++ "\n"

/-- The body of the `while` loop of `decode` in asn1.cpp, for one object
    with tag `t`, class `c` and value bytes `v`.  `sub` is the result of
    the recursive call on the object's children (used only when the
    constructed bit is set). -/
def decodeOne (registry : List Nat → Option String)
    (sub : List EmitCall × List String) (t c : Nat) (v : List Nat)
    (level : Nat) : List EmitCall × List String :=
  let length := v.length
  if c &&& CONSTRUCTED ≠ 0 then
    if t = SEQUENCE then (⟨"SEQUENCE", level, length, ""⟩ :: sub.1, sub.2)
    else if t = SET then (⟨"SET", level, length, ""⟩ :: sub.1, sub.2)
    else
      let name :=
        if c &&& APPLICATION ≠ 0 ∨ c &&& CONTEXT_SPECIFIC ≠ 0 ∨ c &&& PRIVATE ≠ 0 then
          "cons [" ++ Nat.repr t ++ "]"
            ++ (if c &&& APPLICATION ≠ 0 then " appl" else "")
            ++ (if c &&& CONTEXT_SPECIFIC ≠ 0 then " context" else "")
            ++ (if c &&& PRIVATE ≠ 0 then " private" else "")
        else type_name t ++ " (cons)"
      (⟨name, level, length, ""⟩ :: sub.1, sub.2)
  else if c = APPLICATION ∨ c = CONTEXT_SPECIFIC ∨ c = PRIVATE then
    let bits := add_object t c v
    ([⟨"[" ++ Nat.repr t ++ "]", level, length, pipeOutput bits⟩], [])
  else if t = OBJECT_ID then
    ([⟨type_name t, level, length, oidDisplay registry (decodeOID v)⟩], [])
  else if t = INTEGER then
    ([⟨type_name t, level, length, intDisplay (decodeDERInt v)⟩], [])
  else if t = BOOLEAN then
    ([⟨type_name t, level, length, if decodeBool v then "true" else "false"⟩], [])
  else if t = NULL_TAG then
    ([⟨type_name t, level, length, ""⟩], [])
  else if t = OCTET_STRING then
    ([⟨type_name t, level, length, pipeOutput v⟩], [])
  else if t = BIT_STRING then
    ([⟨type_name t, level, length, bit_str (bitStringContents v)⟩], [])
  else if t = PRINTABLE_STRING ∨ t = NUMERIC_STRING ∨ t = IA5_STRING ∨
          t = T61_STRING ∨ t = VISIBLE_STRING ∨ t = UTF8_STRING ∨
          t = BMP_STRING then
    ([⟨type_name t, level, length, latin1ToUtf8 v⟩], [])
  else if t = UTC_TIME ∨ t = GENERALIZED_TIME then
    ([⟨type_name t, level, length, timeDisplay v⟩], [])
  else ([], [unknownTagMsg c t])

/-- The UNIVERSAL primitive tags recognized by the dispatch of asn1.cpp. -/
def handledTags : List Nat :=
  [OBJECT_ID, INTEGER, BOOLEAN, NULL_TAG, OCTET_STRING, BIT_STRING,
   PRINTABLE_STRING, NUMERIC_STRING, IA5_STRING, T61_STRING, VISIBLE_STRING,
   UTF8_STRING, BMP_STRING, UTC_TIME, GENERALIZED_TIME]

/-- The recursive `decode` of asn1.cpp: walks the object stream, emitting
    one `EmitCall` per recognized object (first component) and one stderr
    diagnostic per unrecognized one (second component), recursing into
    constructed objects at `level + 1`. -/
def decode (registry : List Nat → Option String) :
    List ASN1Obj → Nat → List EmitCall × List String
  | [], _ => ([], [])
  | ASN1Obj.node t c v ch :: rest, level =>
    let step := decodeOne registry (decode registry ch (level + 1)) t c v level
    let restOut := decode registry rest level
    (step.1 ++ restOut.1, step.2 ++ restOut.2)

/-! ## The emit formatter (asn1.cpp lines 261-287) -/

def INITIAL_LEVEL : Nat := 0

/-- Left-pad a string with spaces to a minimum width (printf `%2d`/`%4d`). -/
def padNum (w : Nat) (n : Nat) : String :=
  String.mk (List.replicate (w - (Nat.repr n).length) ' ') ++ Nat.repr n

/-- Everything `emit` prints before deciding about the value: the
    `"  d=%2d, l=%4d: "` header, one space per level above
    `INITIAL_LEVEL`, and the type label followed by three spaces. -/
def emitHeader (type : String) (level length : Nat) : String :=
  "  d=" ++ padNum 2 level ++ ", l=" ++ padNum 4 length ++ ": "
    ++ String.mk (List.replicate (level - INITIAL_LEVEL) ' ')
    ++ type ++ "   "

/-- The `should_skip` flag of `emit`: value longer than `LIMIT = 128`, or
    longer than `BIN_LIMIT = 64` for the OCTET STRING / BIT STRING labels. -/
def shouldSkip (type value : String) : Bool :=
  decide (value.length > 128)
    || ((type == "OCTET STRING" || type == "BIT STRING") && decide (value.length > 64))

/-- One output line of `emit`: the header, then — when the value is
    nonempty and not skipped — an optional parity space, alignment
    padding to column 50 (two spaces per loop step), `":"` and the value. -/
def emitLine (type : String) (level length : Nat) (value : String) : String :=
  let header := emitHeader type level length
  if value ≠ "" ∧ shouldSkip type value = false then
    header
      ++ ((if header.length % 2 == 0 then " " else "")
          ++ String.mk (List.replicate (2 * ((50 - header.length + 1) / 2)) ' '))
      ++ ":" ++ value ++ "\n"
  else header ++ "\n"

/-! ## The top level (asn1.cpp lines 52-82) -/

/-- Modelled from the spec: the scanner/stream collaborators are external;
    a `MalformedEncoding` raised while scanning surfaces as `.error` and
    propagates out of the recursive `decode` uncaught (`decode` installs
    no handler). -/
def decodeRun (registry : List Nat → Option String)
    (scanned : Except String (List ASN1Obj)) :
    Except String (List EmitCall × List String) :=
  match scanned with
  | .error e => .error e
  | .ok objs => .ok (decode registry objs INITIAL_LEVEL)

/-- The `main` of asn1.cpp: usage error on wrong argument count, else
    run the decode, catching any exception.  Result: exit code and the
    diagnostic lines printed by `main` itself. -/
def mainRun (argc : Nat) (progName : String)
    (registry : List Nat → Option String)
    (scanned : Except String (List ASN1Obj)) : Nat × List String :=
  if argc ≠ 2 then (1, ["Usage: " ++ progName ++ " <file>"])
  else
    match decodeRun registry scanned with
    | .ok _ => (0, [])
    | .error e => (1, [e])

/-- A registry with the single entry used by the spec's worked example. -/
def rsaRegistry : List Nat → Option String := fun oid =>
  if oid = [1, 2, 840, 113549, 1, 1, 1] then some "rsaEncryption" else none

/-- The empty registry: every lookup misses. -/
def emptyRegistry : List Nat → Option String := fun _ => none


/-! ## Helper lemmas about the BIT STRING loops -/

theorem bitLoop_append (l : List Bool) : ∀ acc : List Char, acc ≠ [] →
    bitLoop l acc = acc ++ l.map bitChar := by
  induction l with
  | nil => intro acc h; simp [bitLoop]
  | cons b rest ih =>
    intro acc h
    simp only [bitLoop]
    rw [if_neg (by simp [h])]
    rw [ih (acc ++ [bitChar b]) (by simp)]
    simp

theorem bitLoop_nil (l : List Bool) :
    bitLoop l [] = (l.dropWhile (fun b => !b)).map bitChar := by
  induction l with
  | nil => simp [bitLoop, List.dropWhile]
  | cons b rest ih =>
    cases b with
    | false => simpa [bitLoop, List.dropWhile] using ih
    | true =>
      simp only [bitLoop, List.dropWhile]
      rw [if_neg (by simp), List.nil_append,
        bitLoop_append rest [bitChar true] (by simp)]
      simp

theorem map_range_getD_reverse (B : List Nat) :
    (List.range B.length).map (fun j => B.getD (B.length - j - 1) 0) = B.reverse := by
  apply List.ext_getElem
  · simp
  · intro n h1 h2
    simp only [List.getElem_map, List.getElem_range, List.getElem_reverse]
    simp only [List.length_map, List.length_range] at h1
    have hidx : B.length - n - 1 = B.length - 1 - n := by omega
    rw [hidx, List.getD_eq_getElem]

theorem bit_set_eq_specBitList (B : List Nat) : bit_set B = specBitList B := by
  unfold bit_set specBitList
  rw [← map_range_getD_reverse B, List.flatMap_map]

theorem bit_str_eq_dropWhile (B : List Nat) :
    bit_str B = String.mk (((bit_set B).reverse.dropWhile (fun b => !b)).map bitChar) := by
  unfold bit_str
  rw [bitLoop_nil]

theorem sum_map_length_eight (g : Nat → List Bool) (hg : ∀ j, (g j).length = 8) :
    ∀ l : List Nat, (List.map (List.length ∘ g) l).sum = 8 * l.length := by
  intro l
  induction l with
  | nil => simp
  | cons a t ih => simp [Function.comp, hg, ih]; ring

theorem length_bit_set (B : List Nat) : (bit_set B).length = 8 * B.length := by
  unfold bit_set
  rw [List.length_flatMap]
  rw [sum_map_length_eight _ (fun j => by simp) (List.range B.length)]
  simp

theorem dropWhile_head_not {α : Type} (p : α → Bool) : ∀ (l : List α) (b : α) (t : List α),
    l.dropWhile p = b :: t → p b = false := by
  intro l
  induction l with
  | nil => intro b t h; simp [List.dropWhile] at h
  | cons a rest ih =>
    intro b t h
    by_cases hp : p a
    · rw [List.dropWhile_cons_of_pos hp] at h
      exact ih b t h
    · rw [List.dropWhile_cons_of_neg hp] at h
      cases h
      simpa using hp

/-- **C1** For every BIT_STRING node with raw value bytes `B[0..n-1]`, the
displayed string equals the spec §4.2 construction: build `L` by iterating
bytes from index `n-1` down to `0` and bit positions from bit 7 down to
bit 0, then emit `L` from its last index back to index 0 skipping leading
zeros; if every byte of `B` is zero the displayed string is empty. -/
theorem bit_string_display_spec (B : List Nat) :
    bit_str B = specBitDisplay B ∧ ((∀ b ∈ B, b = 0) → bit_str B = "") := by
  have hmain : bit_str B = specBitDisplay B := by
    rw [bit_str_eq_dropWhile, specBitDisplay, bit_set_eq_specBitList]
  refine ⟨hmain, fun hz => ?_⟩
  rw [hmain]
  unfold specBitDisplay
  have hnil : (specBitList B).reverse.dropWhile (fun b => !b) = [] := by
    rw [List.dropWhile_eq_nil_iff]
    intro x hx
    rw [List.mem_reverse] at hx
    rcases List.mem_flatMap.mp hx with ⟨byte, hb, hxf⟩
    rw [List.mem_reverse] at hb
    have hb0 : byte = 0 := hz byte hb
    subst hb0
    rcases List.mem_map.mp hxf with ⟨k, hk, rfl⟩
    simp [bitAt]
  rw [hnil]
  rfl

/-- Witness for C1: the spec's §8 worked example bytes, and an all-zero
input displaying as the empty string. -/
theorem bit_string_display_spec_witness :
    bit_str [6, 160] = specBitDisplay [6, 160] ∧ bit_str [0, 0] = "" :=
  ⟨(bit_string_display_spec [6, 160]).1,
   (bit_string_display_spec [0, 0]).2 (by decide)⟩

/-- **C10** For every BIT_STRING node, the displayed string contains only
the characters '1' and '0', has length at most 8 times the number of value
bytes, and when nonempty begins with '1'. -/
theorem bit_string_display_invariants (B : List Nat) :
    (∀ ch ∈ (bit_str B).data, ch = '1' ∨ ch = '0')
    ∧ (bit_str B).length ≤ 8 * B.length
    ∧ ((bit_str B).data ≠ [] → (bit_str B).data.head? = some '1') := by
  rw [bit_str_eq_dropWhile]
  refine ⟨?_, ?_, ?_⟩
  · intro ch hch
    rcases List.mem_map.mp hch with ⟨b, hb, rfl⟩
    cases b
    · right; rfl
    · left; rfl
  · rw [String.length_mk, List.length_map]
    calc ((bit_set B).reverse.dropWhile (fun b => !b)).length
        ≤ (bit_set B).reverse.length := (List.dropWhile_sublist _).length_le
      _ = (bit_set B).length := List.length_reverse _
      _ = 8 * B.length := length_bit_set B
  · intro hne
    rcases hcase : (bit_set B).reverse.dropWhile (fun b => !b) with _ | ⟨b, t⟩
    · exact absurd (by simp [hcase]) hne
    · have hb : (!b) = false := dropWhile_head_not _ _ b t hcase
      have hb' : b = true := by simpa using hb
      subst hb'
      simp [hcase, bitChar]

/-- Witness for C10: a one-byte input whose display is nonempty and
starts with '1'. -/
theorem bit_string_display_invariants_witness :
    (bit_str [5]).length ≤ 8 * 1 ∧ (bit_str [5]).data.head? = some '1' :=
  ⟨(bit_string_display_invariants [5]).2.1,
   (bit_string_display_invariants [5]).2.2 (by decide)⟩

/-! ## C2: OBJECT IDENTIFIER display -/

/-- **C2** For every OBJECT_ID node, the display is `"<name> [<dotted>]"`
when the registry lookup yields a name differing from the dotted decimal
form, and the bare dotted form when the lookup misses. -/
theorem oid_display_rule (registry : List Nat → Option String) (oid : List Nat) :
    (∀ name, registry oid = some name → name ≠ oidToString oid →
      oidDisplay registry oid = name ++ " [" ++ oidToString oid ++ "]")
    ∧ (registry oid = none → oidDisplay registry oid = oidToString oid) := by
  constructor
  · intro name hreg hne
    unfold oidDisplay OIDS_lookup
    rw [hreg]
    simp only []
    rw [if_pos hne]
  · intro hreg
    unfold oidDisplay OIDS_lookup
    rw [hreg]
    simp only []
    rw [if_neg (by simp)]

/-- Witness for C2: the OID 1.2.840.113549.1.1.1 with registry entry
"rsaEncryption" displays as "rsaEncryption [1.2.840.113549.1.1.1]", and
the same OID under an empty registry displays as the bare dotted form. -/
theorem oid_display_rule_witness :
    oidDisplay rsaRegistry [1, 2, 840, 113549, 1, 1, 1]
        = "rsaEncryption [1.2.840.113549.1.1.1]"
    ∧ oidDisplay emptyRegistry [1, 2, 840, 113549, 1, 1, 1]
        = "1.2.840.113549.1.1.1" := by
  constructor
  · have h := (oid_display_rule rsaRegistry [1, 2, 840, 113549, 1, 1, 1]).1
      "rsaEncryption" (by decide) (by decide)
    rw [h]
    decide
  · have h := (oid_display_rule emptyRegistry [1, 2, 840, 113549, 1, 1, 1]).2
      (by decide)
    rw [h]
    decide

/-! ## C3: INTEGER decimal/hex threshold -/

theorem bitLengthAux_le_iff : ∀ (fuel n k : Nat), n ≤ fuel →
    (bitLengthAux fuel n ≤ k ↔ n < 2 ^ k) := by
  intro fuel
  induction fuel with
  | zero =>
    intro n k hn
    have : n = 0 := Nat.le_zero.mp hn
    subst this
    simp [bitLengthAux, Nat.pos_pow_of_pos, Nat.pow_pos]
  | succ fuel ih =>
    intro n k hn
    by_cases h0 : n = 0
    · subst h0
      simp [bitLengthAux, Nat.pow_pos]
    · rw [bitLengthAux, if_neg h0]
      cases k with
      | zero =>
        simp only [Nat.pow_zero]
        constructor
        · intro h; omega
        · intro h; omega
      | succ k =>
        have hdiv : n / 2 ≤ fuel := by
          have := Nat.div_lt_self (Nat.pos_of_ne_zero h0) (by decide : 1 < 2)
          omega
        rw [Nat.succ_le_succ_iff, ih (n / 2) k hdiv,
          Nat.div_lt_iff_lt_mul (by decide : 0 < 2), ← Nat.pow_succ]

/-- **C3** For every INTEGER node, the decoded signed value is rendered in
decimal when its magnitude fits in 16 bits and in hexadecimal otherwise. -/
theorem integer_display_threshold (n : Int) :
    (n.natAbs < 2 ^ 16 → intDisplay n = decimalString n)
    ∧ (2 ^ 16 ≤ n.natAbs → intDisplay n = hexIntString n) := by
  have hiff : bigIntBits n ≤ 16 ↔ n.natAbs < 2 ^ 16 :=
    bitLengthAux_le_iff n.natAbs n.natAbs 16 (Nat.le_refl _)
  constructor
  · intro h
    unfold intDisplay
    rw [if_pos (hiff.mpr h)]
  · intro h
    unfold intDisplay
    rw [if_neg (fun hc => absurd (hiff.mp hc) (by omega))]

/-- Witness for C3: 65535 renders in decimal, 65536 in hexadecimal. -/
theorem integer_display_threshold_witness :
    intDisplay 65535 = "65535" ∧ intDisplay 65536 = "10000" := by
  constructor
  · have h := (integer_display_threshold 65535).1 (by decide)
    rw [h]
    decide
  · have h := (integer_display_threshold 65536).2 (by decide)
    rw [h]
    decide

/-! ## C4: emit truncation -/

/-- **C4** The formatter omits the value suffix, printing only the label
line, whenever the display string exceeds 128 characters, or whenever the
label is OCTET STRING or BIT STRING and the display string exceeds 64
characters; a nonempty display string at or below the applicable limit is
printed after the label. -/
theorem emit_truncation (type value : String) (level length : Nat) :
    ((value.length > 128 ∨ ((type = "OCTET STRING" ∨ type = "BIT STRING")
        ∧ value.length > 64)) →
      emitLine type level length value = emitHeader type level length ++ "\n")
    ∧ (value ≠ "" → value.length ≤ 128 →
        ((type = "OCTET STRING" ∨ type = "BIT STRING") → value.length ≤ 64) →
        ∃ pad, emitLine type level length value
          = emitHeader type level length ++ pad ++ ":" ++ value ++ "\n") := by
  constructor
  · intro h
    have hskip : shouldSkip type value = true := by
      unfold shouldSkip
      rcases h with h | ⟨ht, h⟩
      · simp [h]
      · rcases ht with rfl | rfl <;> simp [h]
    unfold emitLine
    rw [if_neg (fun hc => by rw [hskip] at hc; exact absurd hc.2 (by simp))]
  · intro hne h128 h64
    have hskip : shouldSkip type value = false := by
      unfold shouldSkip
      by_cases ht : type = "OCTET STRING" ∨ type = "BIT STRING"
      · have := h64 ht
        rcases ht with rfl | rfl <;> simp <;> omega
      · push_neg at ht
        have ht1 : (type == "OCTET STRING") = false := by
          simpa using ht.1
        have ht2 : (type == "BIT STRING") = false := by
          simpa using ht.2
        simp [ht1, ht2]
        omega
    unfold emitLine
    rw [if_pos ⟨hne, hskip⟩]
    exact ⟨_, rfl⟩

/-- Witness for C4: a 65-character OCTET STRING display is truncated to
the label line; a short INTEGER display is printed after the label. -/
theorem emit_truncation_witness :
    emitLine "OCTET STRING" 0 33 (String.mk (List.replicate 65 'A'))
        = emitHeader "OCTET STRING" 0 33 ++ "\n"
    ∧ ∃ pad, emitLine "INTEGER" 0 1 "5"
        = emitHeader "INTEGER" 0 1 ++ pad ++ ":" ++ "5" ++ "\n" := by
  constructor
  · exact (emit_truncation "OCTET STRING" (String.mk (List.replicate 65 'A')) 0 33).1
      (Or.inr ⟨Or.inl rfl, by decide⟩)
  · exact (emit_truncation "INTEGER" "5" 0 1).2 (by decide) (by decide)
      (fun hc => by rcases hc with h | h <;> simp at h)

/-! ## C5: non-UNIVERSAL primitive objects -/

/-- The text/binary heuristic of the `Pipe` rendering, restated: text
when every byte is printable-or-whitespace, hex otherwise. -/
theorem pipeOutput_eq (bs : List Nat) :
    pipeOutput bs = if ∀ b ∈ bs, (isgraphB b || isspaceB b) = true
      then textString bs else hexString bs := by
  have hiff : not_text bs = false ↔ ∀ b ∈ bs, (isgraphB b || isspaceB b) = true := by
    unfold not_text
    rw [List.any_eq_false]
    constructor
    · intro h b hb
      have h2 := h b hb
      cases hx : (isgraphB b || isspaceB b)
      · rw [hx] at h2
        simp at h2
      · rfl
    · intro h b hb
      simp [h b hb]
  by_cases h : ∀ b ∈ bs, (isgraphB b || isspaceB b) = true
  · rw [if_pos h]
    unfold pipeOutput
    rw [hiff.mpr h]
    simp
  · rw [if_neg h]
    unfold pipeOutput
    have hnt : not_text bs = true := by
      cases hx : not_text bs
      · exact absurd (hiff.mp hx) h
      · rfl
    rw [hnt]
    simp

/-- **C5** For every non-constructed node whose class is APPLICATION,
CONTEXT_SPECIFIC or PRIVATE, the node is labeled `[<type_tag>]` and the
examined bytes (the re-serialized tag+length+value, asn1.cpp lines 94-98)
are rendered as text when every byte is printable-or-whitespace and as
hexadecimal text otherwise; traversal then continues with the siblings. -/
theorem nonuniversal_primitive_display (registry : List Nat → Option String)
    (t c : Nat) (v : List Nat) (ch rest : List ASN1Obj) (level : Nat)
    (hprim : c &&& CONSTRUCTED = 0)
    (hclass : c = APPLICATION ∨ c = CONTEXT_SPECIFIC ∨ c = PRIVATE) :
    decode registry (ASN1Obj.node t c v ch :: rest) level
      = (⟨"[" ++ Nat.repr t ++ "]", level, v.length,
            if ∀ b ∈ add_object t c v, (isgraphB b || isspaceB b) = true
            then textString (add_object t c v)
            else hexString (add_object t c v)⟩ :: (decode registry rest level).1,
         (decode registry rest level).2) := by
  have hstep : decodeOne registry (decode registry ch (level + 1)) t c v level
      = ([⟨"[" ++ Nat.repr t ++ "]", level, v.length,
            if ∀ b ∈ add_object t c v, (isgraphB b || isspaceB b) = true
            then textString (add_object t c v)
            else hexString (add_object t c v)⟩], []) := by
    unfold decodeOne
    rw [if_neg (fun hc => hc hprim), if_pos hclass]
    simp only [pipeOutput_eq]
  simp only [decode, hstep]
  simp

/-- Witness for C5: a CONTEXT_SPECIFIC primitive with tag 0. -/
theorem nonuniversal_primitive_display_witness :
    decode emptyRegistry [ASN1Obj.node 0 CONTEXT_SPECIFIC [0x41] []] 0
      = ([⟨"[0]", 0, 1,
            if ∀ b ∈ add_object 0 CONTEXT_SPECIFIC [0x41], (isgraphB b || isspaceB b) = true
            then textString (add_object 0 CONTEXT_SPECIFIC [0x41])
            else hexString (add_object 0 CONTEXT_SPECIFIC [0x41])⟩], []) := by
  rw [nonuniversal_primitive_display emptyRegistry 0 CONTEXT_SPECIFIC [0x41] [] [] 0
    (by decide) (by decide)]
  simp [decode]
  decide

/-! ## C6: SEQUENCE of INTEGER children -/

theorem decode_all_integers (registry : List Nat → Option String) :
    ∀ (cs : List ASN1Obj) (level : Nat),
    (∀ o ∈ cs, o.typeTag = INTEGER ∧ o.classTag = UNIVERSAL) →
    decode registry cs level
      = (cs.map (fun o =>
          ⟨"INTEGER", level, o.val.length, intDisplay (decodeDERInt o.val)⟩), []) := by
  intro cs
  induction cs with
  | nil =>
    intro level h
    simp [decode]
  | cons o rest ih =>
    intro level h
    obtain ⟨t, c, v, ch⟩ := o
    obtain ⟨ht, hc⟩ := h _ (List.mem_cons_self _ _)
    simp only [ASN1Obj.typeTag, ASN1Obj.classTag] at ht hc
    subst ht
    subst hc
    have hstep : decodeOne registry (decode registry ch (level + 1)) INTEGER UNIVERSAL v level
        = ([⟨"INTEGER", level, v.length, intDisplay (decodeDERInt v)⟩], []) := by
      simp [decodeOne, type_name, INTEGER, UNIVERSAL, CONSTRUCTED, APPLICATION,
        CONTEXT_SPECIFIC, PRIVATE, SEQUENCE, SET, OBJECT_ID, BOOLEAN, NULL_TAG,
        OCTET_STRING, BIT_STRING, PRINTABLE_STRING, NUMERIC_STRING, IA5_STRING,
        T61_STRING, UTF8_STRING, VISIBLE_STRING, BMP_STRING, UTC_TIME,
        GENERALIZED_TIME]
    simp only [decode, hstep, ih level (fun o ho => h o (List.mem_cons_of_mem _ ho))]
    simp [ASN1Obj.val]

/-- **C6** For every well-formed SEQUENCE containing N primitive INTEGER
children, decode emits exactly one container line labeled SEQUENCE at the
current depth followed by exactly N INTEGER leaf lines at depth+1, one per
child in stream order. -/
theorem sequence_integer_children (registry : List Nat → Option String)
    (v : List Nat) (cs : List ASN1Obj) (level : Nat)
    (h : ∀ o ∈ cs, o.typeTag = INTEGER ∧ o.classTag = UNIVERSAL) :
    (decode registry [ASN1Obj.node SEQUENCE (UNIVERSAL ||| CONSTRUCTED) v cs] level).1
      = ⟨"SEQUENCE", level, v.length, ""⟩
          :: cs.map (fun o =>
              ⟨"INTEGER", level + 1, o.val.length, intDisplay (decodeDERInt o.val)⟩) := by
  have hsub := decode_all_integers registry cs (level + 1) h
  have hstep : decodeOne registry (decode registry cs (level + 1)) SEQUENCE
      (UNIVERSAL ||| CONSTRUCTED) v level
      = (⟨"SEQUENCE", level, v.length, ""⟩ :: (decode registry cs (level + 1)).1,
         (decode registry cs (level + 1)).2) := by
    unfold decodeOne
    rw [if_pos (by decide), if_pos rfl]
  simp only [decode]
  rw [hstep]
  simp [hsub]

/-- Witness for C6: a SEQUENCE of two INTEGER children yields the
container line followed by the two leaf lines at depth 1. -/
theorem sequence_integer_children_witness :
    (decode emptyRegistry [ASN1Obj.node SEQUENCE (UNIVERSAL ||| CONSTRUCTED)
        [2, 1, 5, 2, 1, 7]
        [ASN1Obj.node INTEGER UNIVERSAL [5] [],
         ASN1Obj.node INTEGER UNIVERSAL [7] []]] 0).1
      = [⟨"SEQUENCE", 0, 6, ""⟩, ⟨"INTEGER", 1, 1, "5"⟩, ⟨"INTEGER", 1, 1, "7"⟩] := by
  rw [sequence_integer_children emptyRegistry [2, 1, 5, 2, 1, 7] _ 0 (by decide)]
  decide

/-! ## C7: unrecognized tag/class combinations -/

/-- **C7** For every node whose (type_tag, class_tag) combination the
dispatch does not recognize, the decoder emits a non-fatal diagnostic on
the stderr channel and continues with the next sibling: the stdout lines
are exactly those of the remaining siblings. -/
theorem unknown_tag_diagnostic (registry : List Nat → Option String)
    (t c : Nat) (v : List Nat) (ch rest : List ASN1Obj) (level : Nat)
    (hprim : c &&& CONSTRUCTED = 0)
    (hclass : ¬(c = APPLICATION ∨ c = CONTEXT_SPECIFIC ∨ c = PRIVATE))
    (htag : t ∉ handledTags) :
    decode registry (ASN1Obj.node t c v ch :: rest) level
      = ((decode registry rest level).1,
         unknownTagMsg c t :: (decode registry rest level).2) := by
  simp only [handledTags, List.mem_cons, List.not_mem_nil, or_false, not_or] at htag
  obtain ⟨h1, h2, h3, h4, h5, h6, h7, h8, h9, h10, h11, h12, h13, h14, h15⟩ := htag
  have hstep : decodeOne registry (decode registry ch (level + 1)) t c v level
      = ([], [unknownTagMsg c t]) := by
    unfold decodeOne
    rw [if_neg (fun hc => hc hprim), if_neg hclass, if_neg h1, if_neg h2,
      if_neg h3, if_neg h4, if_neg h5, if_neg h6,
      if_neg (by simp [h7, h8, h9, h10, h11, h12, h13]),
      if_neg (by simp [h14, h15])]
  simp only [decode, hstep]
  simp

/-- Witness for C7: tag 14 (an unassigned UNIVERSAL tag) produces the
diagnostic and the following BOOLEAN sibling is still decoded. -/
theorem unknown_tag_diagnostic_witness :
    decode emptyRegistry [ASN1Obj.node 14 UNIVERSAL [] [],
        ASN1Obj.node BOOLEAN UNIVERSAL [0xFF] []] 0
      = ([⟨"BOOLEAN", 0, 1, "true"⟩], ["Unknown tag: class=00, type=0E\n"]) := by
  rw [unknown_tag_diagnostic emptyRegistry 14 UNIVERSAL [] []
    [ASN1Obj.node BOOLEAN UNIVERSAL [0xFF] []] 0 (by decide) (by decide) (by decide)]
  simp only [decode]
  norm_num [decodeOne, type_name, BOOLEAN, UNIVERSAL, CONSTRUCTED, APPLICATION,
    CONTEXT_SPECIFIC, PRIVATE, SEQUENCE, SET, OBJECT_ID, INTEGER, NULL_TAG,
    OCTET_STRING, BIT_STRING, PRINTABLE_STRING, NUMERIC_STRING, IA5_STRING,
    T61_STRING, UTF8_STRING, VISIBLE_STRING, BMP_STRING, UTC_TIME,
    GENERALIZED_TIME, decodeBool, unknownTagMsg]
  decide

/-! ## C8: exit codes of main -/

/-- **C8** The CLI exits with code 0 when the single-file-argument decode
completes without error, and with code 1 both on incorrect argument count
and on any decode failure (a scanner error such as MalformedEncoding
propagating out of the recursive decode), printing a one-line diagnostic
in the failure cases. -/
theorem main_exit_codes (argc : Nat) (progName : String)
    (registry : List Nat → Option String)
    (scanned : Except String (List ASN1Obj)) :
    (argc ≠ 2 → mainRun argc progName registry scanned
        = (1, ["Usage: " ++ progName ++ " <file>"]))
    ∧ (∀ objs, scanned = .ok objs →
        mainRun 2 progName registry scanned = (0, []))
    ∧ (∀ e, scanned = .error e →
        mainRun 2 progName registry scanned = (1, [e])) := by
  refine ⟨fun h => ?_, fun objs h => ?_, fun e h => ?_⟩
  · unfold mainRun
    rw [if_pos h]
  · unfold mainRun decodeRun
    rw [if_neg (by omega), h]
  · unfold mainRun decodeRun
    rw [if_neg (by omega), h]

/-- Witness for C8: wrong argument count, a successful decode, and a
propagated MalformedEncoding error. -/
theorem main_exit_codes_witness :
    mainRun 1 "asn1" emptyRegistry (.ok []) = (1, ["Usage: " ++ "asn1" ++ " <file>"])
    ∧ mainRun 2 "asn1" emptyRegistry (.ok []) = (0, [])
    ∧ mainRun 2 "asn1" emptyRegistry (.error "MalformedEncoding") = (1, ["MalformedEncoding"]) :=
  ⟨(main_exit_codes 1 "asn1" emptyRegistry (.ok [])).1 (by omega),
   (main_exit_codes 2 "asn1" emptyRegistry (.ok [])).2.1 [] rfl,
   (main_exit_codes 2 "asn1" emptyRegistry (.error "MalformedEncoding")).2.2
     "MalformedEncoding" rfl⟩

/-! ## C9: the empty stream -/

/-- **C9** Decoding an empty byte stream (the scanner immediately reports
end of stream, i.e. the object list is empty) emits zero output lines and
zero diagnostics at any depth, and at top level the process exits with
code 0 and prints no error message. -/
theorem empty_stream_success (registry : List Nat → Option String)
    (progName : String) (level : Nat) :
    decode registry ([] : List ASN1Obj) level = ([], [])
    ∧ mainRun 2 progName registry (.ok []) = (0, []) := by
  constructor
  · simp [decode]
  · unfold mainRun decodeRun
    rw [if_neg (by omega)]
